import Mathlib

/-!
Verification of the data-synchronization layer of a personal
task/project/notes manager (storage gateway + entity services).

The development shallowly embeds the TypeScript source:

* `StorageService.read` / `StorageService.write` (src/services/storage/storageService.ts)
  are modelled over an explicit client state (localStorage as an association
  list, an event trace for toasts and `setItem` calls) with the outcomes of
  network calls supplied as oracle parameters.  `JSON.stringify`/`JSON.parse`
  round-tripping is modelled by storing parsed values (`LocalCell.ok`)
  directly; a cell that would fail to parse is `LocalCell.bad`.
* Entity services (todo/project/notes/notification) are modelled as explicit
  state-passing functions over a `DB` record holding the collections, with
  `new Date().toISOString()` readings and generated identifiers supplied as
  parameters (one per call site, in source order).  Fallible operations
  return `Except String`; an `Except.error` result models a thrown
  exception, before which no storage write has happened (in every modelled
  operation the collection write is sequenced after all throwing checks).
* Optional record fields that no modelled operation reads or writes
  (e.g. `Todo.images`, `Project.resources`, `Note.collaborators`) are elided;
  elisions are noted on each structure.
-/

/-- A JSON value, the data domain of the storage gateway. -/
inductive JsValue where
  | null : JsValue
  | bool : Bool → JsValue
  | num : Int → JsValue
  | str : String → JsValue
  | arr : List JsValue → JsValue
  | obj : List (String × JsValue) → JsValue

/-- A raw localStorage cell: either a string that `JSON.parse` turns into a
value, or one on which `JSON.parse` throws. -/
inductive LocalCell where
  | ok : JsValue → LocalCell
  | bad : LocalCell

/-- Observable storage effects: `localStorage.setItem` calls and the warning
toast shown when a server write fails. -/
inductive StorageEvent where
  | setItem : String → LocalCell → StorageEvent
  | toastWarning : StorageEvent

/-- Association-list lookup for the localStorage model (first binding wins,
matching `upsertKV` which prepends). -/
def lookupKV {α : Type} : List (String × α) → String → Option α
  | [], _ => none
  | (k, v) :: rest, key => if k == key then some v else lookupKV rest key

/-- Association-list update: prepend the new binding (shadows older ones). -/
def upsertKV {α : Type} (l : List (String × α)) (k : String) (v : α) :
    List (String × α) :=
  (k, v) :: l

/-- Browser-side state threaded through the storage gateway: the localStorage
contents and the trace of emitted effects. -/
structure ClientState where
  localStore : List (String × LocalCell)
  events : List StorageEvent

/-- Emit an effect without touching localStorage. -/
def ClientState.emit (s : ClientState) (e : StorageEvent) : ClientState :=
  { s with events := s.events ++ [e] }

/-- Model of `localStorage.setItem`: update the store and record the event. -/
def ClientState.setItem (s : ClientState) (k : String) (c : LocalCell) :
    ClientState :=
  { localStore := upsertKV s.localStore k c
    events := s.events ++ [StorageEvent.setItem k c] }

/-- The `StorageConfig` of the source (the constant `apiBasePath` is elided). -/
structure StorageConfig where
  useServerStorage : Bool
  fallbackToLocalStorage : Bool

/-- Outcome of the `fetch` performed by `StorageService.read`: an OK response
with a JSON body, a 404, or any other failure (non-OK status or a network
error — both reach the same `catch` block in the source). -/
inductive ReadOutcome where
  | ok : JsValue → ReadOutcome
  | notFound : ReadOutcome
  | err : ReadOutcome

/-- `StorageService.getEmptyDataByEntityType`, ported clause for clause.
Note that an entity name such as `note_versions_<noteId>` matches none of the
listed cases and falls through to the final `else`, producing `{}`. -/
def StorageService.getEmptyDataByEntityType (entity : String) : JsValue :=
  if entity == "todos" || entity == "projects" || entity == "notes" ||
      entity == "notifications" then
    JsValue.arr []
  else if entity == "settings" then
    JsValue.obj
      [("theme", JsValue.str "system"),
       ("notifications", JsValue.bool true),
       ("completionGoal", JsValue.num 5),
       ("workingHours",
         JsValue.obj
           [("start", JsValue.str "09:00"), ("end", JsValue.str "17:00")]),
       ("useServerStorage", JsValue.bool true)]
  else if entity == "notification_preferences" then
    JsValue.obj
      [("enabled", JsValue.bool true),
       ("channels", JsValue.arr [JsValue.str "browser"]),
       ("categories",
         JsValue.obj
           [("todo", JsValue.bool true), ("project", JsValue.bool true),
            ("note", JsValue.bool true), ("system", JsValue.bool true)]),
       ("priorities",
         JsValue.obj
           [("low", JsValue.bool true), ("medium", JsValue.bool true),
            ("high", JsValue.bool true)])]
  else
    JsValue.obj []

/-- `StorageService.getStorageKey`.  On the client `basePath` is
`"taskflow_data"`; the `metadata` entity has a fixed key that ignores the
filename. -/
def StorageService.getStorageKey (basePath entity : String)
    (filename : Option String) : String :=
  if entity == "metadata" then
    basePath ++ "_metadata"
  else
    match filename with
    | some f => basePath ++ "_" ++ entity ++ "_" ++ f
    | none => basePath ++ "_" ++ entity

/-- `StorageService.read`.  The server response is the `server` oracle.  The
function never throws: every failure path (server error without fallback,
missing localStorage key, unparseable cell) resolves to
`getEmptyDataByEntityType` via the outer `catch` of the source. -/
def StorageService.read (isClient : Bool) (cfg : StorageConfig)
    (ls : List (String × LocalCell)) (server : ReadOutcome) (entity : String)
    (filename : Option String) : JsValue :=
  if !isClient then
    StorageService.getEmptyDataByEntityType entity
  else
    let localRead : JsValue :=
      match lookupKV ls (StorageService.getStorageKey "taskflow_data" entity filename) with
      | none => StorageService.getEmptyDataByEntityType entity
      | some LocalCell.bad => StorageService.getEmptyDataByEntityType entity
      | some (LocalCell.ok v) => v
    if cfg.useServerStorage then
      match server with
      | ReadOutcome.ok v => v
      | ReadOutcome.notFound => StorageService.getEmptyDataByEntityType entity
      | ReadOutcome.err =>
        if !cfg.fallbackToLocalStorage then
          StorageService.getEmptyDataByEntityType entity
        else
          localRead
    else
      localRead

/-- The body of `StorageService.write` up to (and excluding) the metadata
update: server attempt, warning toast on server failure, rethrow when the
fallback is disabled, single-slot `_backup` snapshot, localStorage write.
Returns `(some msg, state)` when an exception escapes to the outer catch
(the state keeps the effects emitted before the throw). -/
def StorageService.writeCore (cfg : StorageConfig) (s : ClientState)
    (serverOk : Bool) (entity : String) (data : JsValue)
    (filename : Option String) : Option String × ClientState :=
  let attempt : Bool × Bool × ClientState :=
    if cfg.useServerStorage then
      if serverOk then
        (true, false, s)
      else
        let s1 := s.emit StorageEvent.toastWarning
        if cfg.fallbackToLocalStorage then (false, false, s1)
        else (false, true, s1)
    else
      (false, false, s)
  match attempt with
  | (serverWriteSuccessful, thrown, s1) =>
    if thrown then
      (some "server write failed", s1)
    else if !serverWriteSuccessful &&
        (cfg.fallbackToLocalStorage || !cfg.useServerStorage) then
      let key := StorageService.getStorageKey "taskflow_data" entity filename
      let s2 :=
        match lookupKV s1.localStore key with
        | some existing => s1.setItem (key ++ "_backup") existing
        | none => s1
      (none, s2.setItem key (LocalCell.ok data))
    else
      (none, s1)

/-- Setting a property on a JSON value (`metadata.lastSync = ...`).  Only the
object case is observable in the modelled flows; on a non-object the value is
returned unchanged. -/
def jsSetField (v : JsValue) (k : String) (x : JsValue) : JsValue :=
  match v with
  | JsValue.obj fields =>
    JsValue.obj ((k, x) :: fields.filter (fun kv => !(kv.1 == k)))
  | other => other

/-- The network outcomes and clock reading consumed by one
`StorageService.write` call: the main POST, then (for non-metadata entities)
the GET and POST performed by `updateMetadata`. -/
structure WriteOracle where
  serverOk : Bool
  metaRead : ReadOutcome
  metaServerOk : Bool
  metaNow : String

/-- `StorageService.updateMetadata`: read the metadata blob, stamp
`lastSync`, write it back.  Its own `catch` swallows every error, so only the
state survives. -/
def StorageService.updateMetadata (cfg : StorageConfig) (s : ClientState)
    (o : WriteOracle) : ClientState :=
  let m := StorageService.read true cfg s.localStore o.metaRead "metadata" none
  let m1 := jsSetField m "lastSync" (JsValue.str o.metaNow)
  (StorageService.writeCore cfg s o.metaServerOk "metadata" m1 none).2

/-- `StorageService.write`: skip on the server side, run the core write, then
update metadata for non-metadata entities.  A `some` first component models
the `Failed to save <entity> data` exception rethrown by the outer catch. -/
def StorageService.write (isClient : Bool) (cfg : StorageConfig)
    (s : ClientState) (o : WriteOracle) (entity : String) (data : JsValue)
    (filename : Option String) : Option String × ClientState :=
  if !isClient then
    (none, s)
  else
    match StorageService.writeCore cfg s o.serverOk entity data filename with
    | (some _, s1) => (some ("Failed to save " ++ entity ++ " data"), s1)
    | (none, s1) =>
      if entity == "metadata" then (none, s1)
      else (none, StorageService.updateMetadata cfg s1 o)

/-! ### Entity data model (src/types/index.ts) -/

/-- `Todo.status`. -/
inductive TodoStatus where
  | pending
  | inProgress
  | completed
deriving DecidableEq, Repr

/-- `Todo.priority` (also the priority of notifications). -/
inductive Priority where
  | low
  | medium
  | high
deriving DecidableEq, Repr

/-- An embedded subtask record. -/
structure SubTask where
  id : String
  title : String
  completed : Bool
  createdAt : String
  completedAt : Option String
deriving DecidableEq, Repr

/-- A todo record.  Elided optional fields never read or written by the
modelled operations: `images`, `progress`, `startDate`, `completedAt`,
`category`, `dependsOn`. -/
structure Todo where
  id : String
  title : String
  description : Option String
  status : TodoStatus
  priority : Priority
  dueDate : Option String
  createdAt : String
  updatedAt : String
  projectId : Option String
  tags : Option (List String)
  subtasks : Option (List SubTask)
deriving DecidableEq, Repr

/-- `Project.status`. -/
inductive ProjectStatus where
  | planning
  | active
  | onHold
  | completed
  | archived
deriving DecidableEq, Repr

/-- An embedded milestone record (`completedAt` elided). -/
structure Milestone where
  id : String
  title : String
  description : Option String
  dueDate : String
  completed : Bool
  todoIds : List String
  createdAt : String
  updatedAt : String
deriving DecidableEq, Repr

/-- A project record.  Elided optional fields never read or written by the
modelled operations: `completedAt`, `resources`, `tags`, `owner`, `risks`,
`velocity`, `timeSpent`. -/
structure Project where
  id : String
  name : String
  description : Option String
  status : ProjectStatus
  createdAt : String
  updatedAt : String
  startDate : Option String
  dueDate : Option String
  color : Option String
  progress : Nat
  todoIds : List String
  milestones : List Milestone
deriving DecidableEq, Repr

/-- A note record.  Elided fields never read or written by the modelled
operations: `images`, `folder`, `contentType`, `collaborators`, `color`. -/
structure Note where
  id : String
  title : String
  content : String
  createdAt : String
  updatedAt : String
  projectId : Option String
  todoId : Option String
  tags : Option (List String)
  isFavorite : Option Bool
  lastEditedAt : String
  relatedNotes : Option (List String)
  relatedTodos : Option (List String)
  version : Option Nat
deriving DecidableEq, Repr

/-- A snapshot in a note's version history (`author` elided). -/
structure NoteVersion where
  id : String
  noteId : String
  content : String
  timestamp : String
deriving DecidableEq, Repr

/-- A notification record.  Elided fields never read or written by the
modelled operations: `type`, `todoId`, `projectId`, `noteId`, `actions`,
`expiresAt`, `category`, `source`. -/
structure NotificationData where
  id : String
  title : String
  message : String
  timestamp : String
  read : Bool
  priority : Priority
deriving DecidableEq, Repr

/-- The persisted collections the entity services operate on.  Each service
call rewrites whole collections through the storage gateway; here the gateway
is assumed to behave as a key-value store (its failure modes are analysed
separately at the storage layer above).  `noteVersions` maps a note id to its
`note_versions_<noteId>` collection; an absent key models storage that has
never been written for that note, on which `StorageService.read` resolves to
the empty object `{}` (see `StorageService.getEmptyDataByEntityType`). -/
structure DB where
  todos : List Todo
  projects : List Project
  notes : List Note
  notifications : List NotificationData
  noteVersions : List (String × List NoteVersion)
deriving DecidableEq, Repr

/-! ### Validation (TodoService.validateTodo, ProjectService.validateProject) -/

/-- Model of the JavaScript `Date` parser used by the validators: accepts
strings with an ISO-8601 `YYYY-MM-DD` prefix (the only shape the application
produces).  Engine-specific laxities of `new Date(...)` are not modelled; no
claim depends on them. -/
def jsDateValid (s : String) : Bool :=
  match s.data with
  | y1 :: y2 :: y3 :: y4 :: '-' :: m1 :: m2 :: '-' :: d1 :: d2 :: _ =>
    [y1, y2, y3, y4, m1, m2, d1, d2].all Char.isDigit
  | _ => false

/-- Structural model of JavaScript `String.prototype.trim`: strip whitespace
from both ends (defined on the character list so concrete states evaluate
inside the kernel). -/
def jsTrim (s : String) : String :=
  String.mk (((s.data.dropWhile Char.isWhitespace).reverse.dropWhile
    Char.isWhitespace).reverse)

/-- Split a character list on every occurrence of `sep`. -/
def splitOnCharList (sep : Char) : List Char → List (List Char)
  | [] => [[]]
  | c :: rest =>
    if c == sep then [] :: splitOnCharList sep rest
    else
      match splitOnCharList sep rest with
      | h :: t => (c :: h) :: t
      | [] => [[c]]

/-- Structural model of JavaScript `String.prototype.split` with a
single-character separator (the only use in the source is `split(":")`):
`""` yields `[""]`, `"22:00"` yields `["22", "00"]`. -/
def jsSplit (s : String) (sep : Char) : List String :=
  (splitOnCharList sep s.data).map String.mk

/-- The title/description/dueDate checks shared by `validateTodo` on create
and update inputs.  JS `.length` counts UTF-16 units; `String.length` counts
characters — they agree on the ASCII strings used throughout.  The
`Array.isArray` checks on `subtasks`/`tags`/`images` and the `status`/
`priority` enum membership checks are vacuous under this typed embedding and
are elided. -/
def validateTodoFields (title : String) (description : Option String)
    (dueDate : Option String) : Except String Unit :=
  if ((jsTrim title).length == 0) then
    Except.error "Todo title is required"
  else if title.length > 100 then
    Except.error "Todo title must be 100 characters or less"
  else if (match description with
           | some d => decide (d.length > 500)
           | none => false) then
    Except.error "Todo description must be 500 characters or less"
  else if (match dueDate with
           | some s => !jsDateValid s
           | none => false) then
    Except.error "Invalid due date"
  else
    Except.ok ()

/-- `TodoService.validateTodo` applied to a full todo record. -/
def validateTodo (t : Todo) : Except String Unit :=
  validateTodoFields t.title t.description t.dueDate

/-- `ProjectService.validateProject`.  Date comparison for
`startDate <= dueDate` uses `jsDateLe`, a lexicographic model of comparing
`new Date(...)` values that agrees with chronology on ISO-8601 strings. -/
def jsDateLe (a b : String) : Bool :=
  a ≤ b

/-- `ProjectService.validateProject`, ported clause for clause (the closed
status-enum check is vacuous under the typed embedding). -/
def validateProject (p : Project) : Except String Unit :=
  if ((jsTrim p.name).length == 0) then
    Except.error "Project name is required"
  else if p.name.length > 100 then
    Except.error "Project name must be 100 characters or less"
  else if (match p.description with
           | some d => decide (d.length > 500)
           | none => false) then
    Except.error "Project description must be 500 characters or less"
  else if (match p.dueDate with
           | some s => !jsDateValid s
           | none => false) then
    Except.error "Invalid due date"
  else if (match p.startDate with
           | some s => !jsDateValid s
           | none => false) then
    Except.error "Invalid start date"
  else if (match p.startDate, p.dueDate with
           | some s, some d => !jsDateLe s d
           | _, _ => false) then
    Except.error "Start date must be before due date"
  else
    Except.ok ()

/-! ### Service operations

Each operation mirrors one method of the corresponding service class.
`find?`/`setFirst` model JavaScript `Array.prototype.find` /
`findIndex` followed by assignment at the found index (first match). -/

/-- Replace the first element satisfying `p` by `x` (models
`arr[arr.findIndex(p)] = x`; the identity when nothing matches, a case the
services guard against before calling). -/
def setFirst {α : Type} (p : α → Bool) (x : α) : List α → List α
  | [] => []
  | y :: ys => if p y then x :: ys else y :: setFirst p x ys

/-- `Math.round((c / len) * 100)` for the progress computation: round half up
on the exact rational `100 * c / len`.  The IEEE-754 evaluation in the source
agrees: the division error (well under one ulp) only matters at the
round-half boundary, and whenever `100 * c / len` is exactly a half-integer
it is a dyadic rational computed exactly. -/
def jsRound100 (c len : Nat) : Nat :=
  (200 * c + len) / (2 * len)

/-- A `Partial<Omit<Todo, "id" | "createdAt">>` update patch.  A field that
is `none` is absent from the patch; for an optional todo field, `some none`
models an explicitly `undefined` entry (the spread then clears the field, as
`removeTodoFromProject` relies on).  `updatedAt` is representable in the
source type but is unconditionally overwritten by the service, so it is
elided here. -/
structure TodoPatch where
  title : Option String
  description : Option (Option String)
  status : Option TodoStatus
  priority : Option Priority
  dueDate : Option (Option String)
  projectId : Option (Option String)
  tags : Option (Option (List String))
  subtasks : Option (Option (List SubTask))
deriving DecidableEq, Repr

/-- The all-absent todo patch, for building patches by record update. -/
def TodoPatch.empty : TodoPatch :=
  { title := none, description := none, status := none, priority := none
    dueDate := none, projectId := none, tags := none, subtasks := none }

/-- The object spread `{ ...todos[index], ...todoData, updatedAt: now }` of
`TodoService.updateTodo`: patch fields override, `id` and `createdAt` are not
in the patch type, `updatedAt` is forced to the clock reading. -/
def applyTodoPatch (old : Todo) (q : TodoPatch) (now : String) : Todo :=
  { id := old.id
    title := q.title.getD old.title
    description := q.description.getD old.description
    status := q.status.getD old.status
    priority := q.priority.getD old.priority
    dueDate := q.dueDate.getD old.dueDate
    createdAt := old.createdAt
    updatedAt := now
    projectId := q.projectId.getD old.projectId
    tags := q.tags.getD old.tags
    subtasks := q.subtasks.getD old.subtasks }

/-- The creation input `Omit<Todo, "id" | "createdAt" | "updatedAt">`. -/
structure TodoCreateInput where
  title : String
  description : Option String
  status : TodoStatus
  priority : Priority
  dueDate : Option String
  projectId : Option String
  tags : Option (List String)
  subtasks : Option (List SubTask)
deriving DecidableEq, Repr

/-- `TodoService.createTodo`.  `newId` is the value returned by
`generateId()` and `now1`/`now2` are the two separate
`new Date().toISOString()` readings taken for `createdAt` and `updatedAt`.
Modelled from the spec: `generateId` lives in `@/lib/utils`, which is not in
the source snapshot; per the spec entities are "created with server/client-
generated unique identifiers", so the generated id is supplied as an input,
its freshness being the generator's contract. -/
def TodoService.createTodo (db : DB) (input : TodoCreateInput)
    (newId now1 now2 : String) : Except String (Todo × DB) :=
  match validateTodoFields input.title input.description input.dueDate with
  | Except.error e => Except.error e
  | Except.ok _ =>
    let newTodo : Todo :=
      { id := newId
        title := input.title
        description := input.description
        status := input.status
        priority := input.priority
        dueDate := input.dueDate
        createdAt := now1
        updatedAt := now2
        projectId := input.projectId
        tags := input.tags
        subtasks := input.subtasks }
    Except.ok (newTodo, { db with todos := db.todos ++ [newTodo] })

/-- `TodoService.updateTodo`: locate the first todo with the given id, merge
the patch, validate the merged record, replace it in place and rewrite the
collection. -/
def TodoService.updateTodo (db : DB) (id : String) (q : TodoPatch)
    (now : String) : Except String (Todo × DB) :=
  match db.todos.find? (fun t => t.id == id) with
  | none => Except.error ("Todo with id " ++ id ++ " not found")
  | some old =>
    let updated := applyTodoPatch old q now
    match validateTodo updated with
    | Except.error e => Except.error e
    | Except.ok _ =>
      Except.ok (updated,
        { db with todos := setFirst (fun t => t.id == id) updated db.todos })

/-- `TodoService.deleteTodo`: filter the id out and fail before any write
when nothing was removed. -/
def TodoService.deleteTodo (db : DB) (id : String) : Except String DB :=
  let filteredTodos := db.todos.filter (fun t => !(t.id == id))
  if filteredTodos.length == db.todos.length then
    Except.error ("Todo with id " ++ id ++ " not found")
  else
    Except.ok { db with todos := filteredTodos }

/-- `TodoService.getTodosByProject`. -/
def TodoService.getTodosByProject (db : DB) (projectId : String) :
    List Todo :=
  db.todos.filter (fun t => t.projectId == some projectId)

/-- A `Partial<Project>` update patch restricted to the fields the modelled
flows exercise (the remaining optional fields are elided like their `Project`
counterparts).  `id`, `createdAt` and `updatedAt` are representable in the
source type but unconditionally overwritten by `updateProject`. -/
structure ProjectPatch where
  name : Option String
  description : Option (Option String)
  status : Option ProjectStatus
  startDate : Option (Option String)
  dueDate : Option (Option String)
  color : Option (Option String)
  progress : Option Nat
  todoIds : Option (List String)
  milestones : Option (List Milestone)
deriving DecidableEq, Repr

/-- The all-absent project patch. -/
def ProjectPatch.empty : ProjectPatch :=
  { name := none, description := none, status := none, startDate := none
    dueDate := none, color := none, progress := none, todoIds := none
    milestones := none }

/-- The object spread of `ProjectService.updateProject`: patch fields
override, then `id` is forced back to the argument, `createdAt` to the stored
value and `updatedAt` to the clock reading. -/
def applyProjectPatch (old : Project) (q : ProjectPatch) (id now : String) :
    Project :=
  { id := id
    name := q.name.getD old.name
    description := q.description.getD old.description
    status := q.status.getD old.status
    createdAt := old.createdAt
    updatedAt := now
    startDate := q.startDate.getD old.startDate
    dueDate := q.dueDate.getD old.dueDate
    color := q.color.getD old.color
    progress := q.progress.getD old.progress
    todoIds := q.todoIds.getD old.todoIds
    milestones := q.milestones.getD old.milestones }

/-- `ProjectService.getProjectById` (via `getProjects` + `Array.find`). -/
def ProjectService.getProjectById (db : DB) (id : String) : Option Project :=
  db.projects.find? (fun p => p.id == id)

/-- `ProjectService.updateProject`. -/
def ProjectService.updateProject (db : DB) (id : String) (q : ProjectPatch)
    (now : String) : Except String (Project × DB) :=
  match db.projects.find? (fun p => p.id == id) with
  | none => Except.error ("Project with id " ++ id ++ " not found")
  | some old =>
    let updatedProject := applyProjectPatch old q id now
    match validateProject updatedProject with
    | Except.error e => Except.error e
    | Except.ok _ =>
      Except.ok (updatedProject,
        { db with
            projects := setFirst (fun p => p.id == id) updatedProject db.projects })

/-- `ProjectService.deleteProject`. -/
def ProjectService.deleteProject (db : DB) (id : String) :
    Except String DB :=
  let filteredProjects := db.projects.filter (fun p => !(p.id == id))
  if filteredProjects.length == db.projects.length then
    Except.error ("Project with id " ++ id ++ " not found")
  else
    Except.ok { db with projects := filteredProjects }

/-- `ProjectService.updateProjectProgress` with its single clock reading (the
`updateProject` call).  With no linked todo ids the progress is set to `0`;
otherwise the completed todos among those back-referencing the project are
counted and `progress = Math.round((completed / todoIds.length) * 100)`. -/
def ProjectService.updateProjectProgress (db : DB) (projectId : String)
    (now : String) : Except String (Nat × DB) :=
  match ProjectService.getProjectById db projectId with
  | none => Except.error ("Project with id " ++ projectId ++ " not found")
  | some project =>
    if project.todoIds.length == 0 then
      match ProjectService.updateProject db projectId
          { ProjectPatch.empty with progress := some 0 } now with
      | Except.error e => Except.error e
      | Except.ok (_, db1) => Except.ok (0, db1)
    else
      let projectTodos := TodoService.getTodosByProject db projectId
      let completedTodos :=
        (projectTodos.filter (fun t => t.status == TodoStatus.completed)).length
      let progress := jsRound100 completedTodos project.todoIds.length
      match ProjectService.updateProject db projectId
          { ProjectPatch.empty with progress := some progress } now with
      | Except.error e => Except.error e
      | Except.ok (_, db1) => Except.ok (progress, db1)

/-- `ProjectService.addTodoToProject`.  The clock readings are, in source
order: `nowTodo` for the nested `updateTodo`, `nowProg` for the
`updateProject` inside `updateProjectProgress`, and `nowSave` for the final
`updateProject` that persists the extended `todoIds`. -/
def ProjectService.addTodoToProject (db : DB) (projectId todoId : String)
    (nowTodo nowProg nowSave : String) : Except String (Project × DB) :=
  match ProjectService.getProjectById db projectId with
  | none => Except.error ("Project with id " ++ projectId ++ " not found")
  | some project =>
    match db.todos.find? (fun t => t.id == todoId) with
    | none => Except.error ("Todo with id " ++ todoId ++ " not found")
    | some _ =>
      if project.todoIds.contains todoId then
        Except.ok (project, db)
      else
        let updatedTodoIds := project.todoIds ++ [todoId]
        match TodoService.updateTodo db todoId
            { TodoPatch.empty with projectId := some (some projectId) }
            nowTodo with
        | Except.error e => Except.error e
        | Except.ok (_, db1) =>
          match ProjectService.updateProjectProgress db1 projectId nowProg with
          | Except.error e => Except.error e
          | Except.ok (_, db2) =>
            ProjectService.updateProject db2 projectId
              { ProjectPatch.empty with todoIds := some updatedTodoIds } nowSave

/-- `ProjectService.removeTodoFromProject`.  Clock readings in source order:
`nowTodo` for the back-reference-clearing `updateTodo` (performed only when
the todo still points at this project), `nowProg` for the progress update,
`nowSave` for the final `updateProject`. -/
def ProjectService.removeTodoFromProject (db : DB) (projectId todoId : String)
    (nowTodo nowProg nowSave : String) : Except String (Project × DB) :=
  match ProjectService.getProjectById db projectId with
  | none => Except.error ("Project with id " ++ projectId ++ " not found")
  | some project =>
    if !(project.todoIds.contains todoId) then
      Except.ok (project, db)
    else
      let updatedTodoIds := project.todoIds.filter (fun i => !(i == todoId))
      let step1 : Except String DB :=
        match db.todos.find? (fun t => t.id == todoId) with
        | some todo =>
          if todo.projectId == some projectId then
            match TodoService.updateTodo db todoId
                { TodoPatch.empty with projectId := some none } nowTodo with
            | Except.error e => Except.error e
            | Except.ok (_, db1) => Except.ok db1
          else Except.ok db
        | none => Except.ok db
      match step1 with
      | Except.error e => Except.error e
      | Except.ok db1 =>
        match ProjectService.updateProjectProgress db1 projectId nowProg with
        | Except.error e => Except.error e
        | Except.ok (_, db2) =>
          ProjectService.updateProject db2 projectId
            { ProjectPatch.empty with todoIds := some updatedTodoIds } nowSave

/-- A `Partial<Omit<Note, "id" | "createdAt">>` update patch (same encoding
as `TodoPatch`).  `updatedAt`, `lastEditedAt` and `version` are representable
in the source type but unconditionally overwritten by `updateNote`, so they
are elided. -/
structure NotePatch where
  title : Option String
  content : Option String
  projectId : Option (Option String)
  todoId : Option (Option String)
  tags : Option (Option (List String))
  isFavorite : Option (Option Bool)
  relatedNotes : Option (Option (List String))
  relatedTodos : Option (Option (List String))
deriving DecidableEq, Repr

/-- The all-absent note patch. -/
def NotePatch.empty : NotePatch :=
  { title := none, content := none, projectId := none, todoId := none
    tags := none, isFavorite := none, relatedNotes := none
    relatedTodos := none }

/-- The object spread of `NotesService.updateNote`, with `updatedAt` and
`lastEditedAt` forced to the clock reading and `version` to the computed
successor. -/
def applyNotePatch (old : Note) (q : NotePatch) (now : String)
    (newVersion : Nat) : Note :=
  { id := old.id
    title := q.title.getD old.title
    content := q.content.getD old.content
    createdAt := old.createdAt
    updatedAt := now
    projectId := q.projectId.getD old.projectId
    todoId := q.todoId.getD old.todoId
    tags := q.tags.getD old.tags
    isFavorite := q.isFavorite.getD old.isFavorite
    lastEditedAt := now
    relatedNotes := q.relatedNotes.getD old.relatedNotes
    relatedTodos := q.relatedTodos.getD old.relatedTodos
    version := some newVersion }

/-- `NotesService.createNoteVersion`.  `getNoteVersions` reads the
`note_versions_<noteId>` entity; when that key has never been written,
`StorageService.read` resolves (it never rejects, so the `.catch(() => [])`
in `getNoteVersions` is dead code) to `getEmptyDataByEntityType`'s fallback
`{}` — and the array spread `[...versions, newVersion]` then throws a
`TypeError`, caught and rethrown as `Failed to create note version`.  The
`none` branch models exactly that.  `vid` is the `uuidv4()` result. -/
def NotesService.createNoteVersion (db : DB) (vid noteId content
    timestamp : String) : Except String DB :=
  match lookupKV db.noteVersions noteId with
  | none => Except.error "Failed to create note version"
  | some versions =>
    let newVersion : NoteVersion :=
      { id := vid, noteId := noteId, content := content
        timestamp := timestamp }
    Except.ok
      { db with
          noteVersions :=
            upsertKV db.noteVersions noteId (versions ++ [newVersion]) }

/-- `NotesService.updateNote`: find the note, snapshot the pre-update
`content` with the prior `lastEditedAt` (falling back to `updatedAt` when
`lastEditedAt` is falsy) into the version history, then persist the merged
note with `version` = `(stored version || 1) + 1`.  Every failure is
rethrown by the outer catch as `Failed to update note`.  `now` is the single
`new Date().toISOString()` reading, `vid` the `uuidv4()` for the snapshot. -/
def NotesService.updateNote (db : DB) (id : String) (q : NotePatch)
    (now vid : String) : Except String (Note × DB) :=
  match db.notes.find? (fun n => n.id == id) with
  | none => Except.error "Failed to update note"
  | some old =>
    let currentVersion : Nat :=
      match old.version with
      | some v => if v == 0 then 1 else v
      | none => 1
    let updatedNote := applyNotePatch old q now (currentVersion + 1)
    let priorStamp := if old.lastEditedAt == "" then old.updatedAt
                      else old.lastEditedAt
    match NotesService.createNoteVersion db vid id old.content priorStamp with
    | Except.error _ => Except.error "Failed to update note"
    | Except.ok db1 =>
      Except.ok (updatedNote,
        { db1 with notes := setFirst (fun n => n.id == id) updatedNote db1.notes })

/-- `NotesService.deleteAllNoteVersions`: overwrite the per-note version
collection with the empty list (the key is written, not removed). -/
def NotesService.deleteAllNoteVersions (db : DB) (noteId : String) : DB :=
  { db with noteVersions := upsertKV db.noteVersions noteId [] }

/-- `NotesService.deleteNote`: fail (before any write) when the id is absent,
otherwise clear the version history and rewrite the filtered collection.
Errors surface as the rethrown `Failed to delete note`. -/
def NotesService.deleteNote (db : DB) (id : String) : Except String DB :=
  let filteredNotes := db.notes.filter (fun n => !(n.id == id))
  if db.notes.length == filteredNotes.length then
    Except.error "Failed to delete note"
  else
    let db1 := NotesService.deleteAllNoteVersions db id
    Except.ok { db1 with notes := filteredNotes }

/-- `NotificationService.deleteNotification` (rethrown message as in the
source's catch). -/
def NotificationService.deleteNotification (db : DB) (id : String) :
    Except String DB :=
  let filteredNotifications :=
    db.notifications.filter (fun n => !(n.id == id))
  if db.notifications.length == filteredNotifications.length then
    Except.error "Failed to delete notification"
  else
    Except.ok { db with notifications := filteredNotifications }

/-! ### Quiet hours (NotificationService.isInQuietHours) -/

/-- Model of JavaScript `parseInt(s, 10)`: skip leading whitespace, optional
sign, then a decimal digit run; `none` models `NaN` (no digits). -/
def parseIntJs (s : String) : Option Int :=
  let cs := s.data.dropWhile Char.isWhitespace
  let signAndRest : Int × List Char :=
    match cs with
    | '-' :: r => (-1, r)
    | '+' :: r => (1, r)
    | r => (1, r)
  let digits := signAndRest.2.takeWhile Char.isDigit
  if digits.isEmpty then none
  else
    some (signAndRest.1 *
      Int.ofNat (digits.foldl (fun a c => a * 10 + (c.toNat - '0'.toNat)) 0))

/-- JavaScript `a <= b` where either side may be `NaN` (`none`): any
comparison involving `NaN` is false. -/
def jsLeNN (a b : Option Int) : Bool :=
  match a, b with
  | some x, some y => decide (x ≤ y)
  | _, _ => false

/-- JavaScript `now >= b` with a number on the left and a possibly-`NaN`
right side. -/
def jsGeNum (now : Int) (b : Option Int) : Bool :=
  match b with
  | some y => decide (now ≥ y)
  | none => false

/-- JavaScript `now <= b` with a number on the left and a possibly-`NaN`
right side. -/
def jsLeNum (now : Int) (b : Option Int) : Bool :=
  match b with
  | some y => decide (now ≤ y)
  | none => false

/-- `NotificationService.isInQuietHours`, with the current minute-of-day
(`now.getHours() * 60 + now.getMinutes()`) supplied as `nowMinutes`.
Missing preferences are `none`; the JS falsiness test on the strings also
rejects `""`.  `parseInt` failures propagate as `NaN` (`none`) through the
minute arithmetic and the comparisons. -/
def NotificationService.isInQuietHours (quietHoursStart quietHoursEnd :
    Option String) (nowMinutes : Int) : Bool :=
  let qs := quietHoursStart.getD ""
  let qe := quietHoursEnd.getD ""
  if qs == "" || qe == "" then
    false
  else
    let startParts := jsSplit qs ':'
    let endParts := jsSplit qe ':'
    if !(startParts.length == 2) || !(endParts.length == 2) then
      false
    else
      let startHour := parseIntJs (startParts.getD 0 "")
      let startMinute := parseIntJs (startParts.getD 1 "")
      let endHour := parseIntJs (endParts.getD 0 "")
      let endMinute := parseIntJs (endParts.getD 1 "")
      let startMinutes : Option Int :=
        match startHour, startMinute with
        | some h, some m => some (h * 60 + m)
        | _, _ => none
      let endMinutes : Option Int :=
        match endHour, endMinute with
        | some h, some m => some (h * 60 + m)
        | _, _ => none
      if jsLeNN startMinutes endMinutes then
        jsGeNum nowMinutes startMinutes && jsLeNum nowMinutes endMinutes
      else
        jsGeNum nowMinutes startMinutes || jsLeNum nowMinutes endMinutes

/-- Abbreviation for the state produced by a successful `updateProject` run
(used to state the claim theorems without repeating the record). -/
def updateProjectResultDB (db : DB) (pid now : String) (p : Project)
    (q : ProjectPatch) : DB :=
  { db with
      projects := setFirst (fun r => r.id == pid)
        (applyProjectPatch p q pid now) db.projects }

/-- Abbreviation for the state produced by a successful `updateTodo` run. -/
def updateTodoResultDB (db : DB) (id now : String) (old : Todo)
    (q : TodoPatch) : DB :=
  { db with
      todos := setFirst (fun x => x.id == id)
        (applyTodoPatch old q now) db.todos }

/-! ### Concrete states used in the claim analyses -/

/-- A valid completed todo not yet linked to any project. -/
def exTodo : Todo :=
  { id := "t1", title := "T", description := none
    status := TodoStatus.completed, priority := Priority.medium
    dueDate := none, createdAt := "ts0", updatedAt := "ts0"
    projectId := none, tags := none, subtasks := none }

/-- A valid project with no linked todos. -/
def exProject : Project :=
  { id := "p1", name := "P", description := none
    status := ProjectStatus.planning, createdAt := "ts0", updatedAt := "ts0"
    startDate := none, dueDate := none, color := none, progress := 0
    todoIds := [], milestones := [] }

/-- State with one empty project and one completed, unlinked todo. -/
def exDB : DB :=
  { todos := [exTodo], projects := [exProject], notes := []
    notifications := [], noteVersions := [] }

/-- A todo linked to project `p4`. -/
def exLinkedTodo (i : String) (st : TodoStatus) : Todo :=
  { exTodo with id := i, status := st, projectId := some "p4" }

/-- A project with four linked todo ids. -/
def exProject4 : Project :=
  { exProject with id := "p4", todoIds := ["a", "b", "c", "d"] }

/-- State for the progress example: four linked todos, exactly one
completed. -/
def exDB4 : DB :=
  { todos := [exLinkedTodo "a" TodoStatus.completed,
              exLinkedTodo "b" TodoStatus.pending,
              exLinkedTodo "c" TodoStatus.pending,
              exLinkedTodo "d" TodoStatus.inProgress]
    projects := [exProject4], notes := [], notifications := []
    noteVersions := [] }

/-- A valid note at version 1. -/
def exNote : Note :=
  { id := "n1", title := "N", content := "hello", createdAt := "ts0"
    updatedAt := "ts0", projectId := none, todoId := none, tags := none
    isFavorite := none, lastEditedAt := "ts0", relatedNotes := none
    relatedTodos := none, version := some 1 }

/-- A notification. -/
def exNotification : NotificationData :=
  { id := "f1", title := "F", message := "m", timestamp := "ts0"
    read := false, priority := Priority.low }

/-- State with one note whose `note_versions_n1` collection has never been
written (no key in `noteVersions`), the generic state for a freshly created
note. -/
def exNoteDB : DB :=
  { todos := [], projects := [], notes := [exNote], notifications := []
    noteVersions := [] }

/-- State exercising all four collections for the delete claims. -/
def exFullDB : DB :=
  { todos := [exTodo], projects := [exProject], notes := [exNote]
    notifications := [exNotification], noteVersions := [] }

/-- A valid todo-creation input. -/
def exInput : TodoCreateInput :=
  { title := "T", description := none, status := TodoStatus.pending
    priority := Priority.low, dueDate := none, projectId := none
    tags := none, subtasks := none }

/-- The todo `t1` after being linked to `p1` by `addTodoToProject` with
clock reading `u1`. -/
def exTodoLinked : Todo :=
  { exTodo with projectId := some "p1", updatedAt := "u1" }

/-- The project `p1` after `addTodoToProject` with final clock reading
`u3` (note the stale progress 0, see `spec_c1_eval`). -/
def exProjectAfterAdd : Project :=
  { exProject with updatedAt := "u3", todoIds := ["t1"] }

/-- The state after `addTodoToProject exDB "p1" "t1" "u1" "u2" "u3"`. -/
def exDBAfterAdd : DB :=
  { todos := [exTodoLinked], projects := [exProjectAfterAdd], notes := []
    notifications := [], noteVersions := [] }

/-! ### Helper lemmas -/

theorem setFirst_length {α : Type} (p : α → Bool) (x : α) (l : List α) :
    (setFirst p x l).length = l.length := by
  induction l with
  | nil => rfl
  | cons y ys ih =>
    simp only [setFirst]
    split
    · simp
    · simp [ih]

theorem find?_setFirst {α : Type} (p : α → Bool) (x y : α) (l : List α)
    (hl : l.find? p = some y) (hx : p x = true) :
    (setFirst p x l).find? p = some x := by
  induction l with
  | nil => simp at hl
  | cons z zs ih =>
    by_cases hz : p z = true
    · simp [setFirst, hz, List.find?_cons_of_pos, hx]
    · have hz' : p z = false := by simpa using hz
      rw [List.find?_cons_of_neg _ (by simp [hz'])] at hl
      simp [setFirst, hz', List.find?_cons_of_neg, ih hl]

theorem setFirst_getElem {α : Type} (p : α → Bool) (x y : α) (l : List α)
    (hl : l.find? p = some y) :
    ∃ i : Nat, l[i]? = some y ∧ (setFirst p x l)[i]? = some x ∧
      ∀ j : Nat, j ≠ i → (setFirst p x l)[j]? = l[j]? := by
  induction l with
  | nil => simp at hl
  | cons z zs ih =>
    by_cases hz : p z = true
    · rw [List.find?_cons_of_pos _ hz] at hl
      refine ⟨0, by simpa using hl, by simp [setFirst, hz], ?_⟩
      intro j hj
      cases j with
      | zero => exact absurd rfl hj
      | succ j' => simp [setFirst, hz]
    · have hz' : p z = false := by simpa using hz
      rw [List.find?_cons_of_neg _ (by simp [hz'])] at hl
      obtain ⟨i, h1, h2, h3⟩ := ih hl
      refine ⟨i + 1, by simpa using h1, ?_, ?_⟩
      · simp [setFirst, hz', h2]
      · intro j hj
        cases j with
        | zero => simp [setFirst, hz']
        | succ j' =>
          have : j' ≠ i := fun h => hj (by rw [h])
          simp [setFirst, hz', h3 j' this]

theorem contains_append_singleton (l : List String) (x : String) :
    (l ++ [x]).contains x = true := by
  simp [List.contains]


theorem updateProject_ok {db : DB} {id : String} {q : ProjectPatch}
    {now : String} {p' : Project} {db' : DB}
    (h : ProjectService.updateProject db id q now = Except.ok (p', db')) :
    ∃ old, db.projects.find? (fun r => r.id == id) = some old ∧
      p' = applyProjectPatch old q id now ∧
      db' = { db with
                projects := setFirst (fun r => r.id == id)
                  (applyProjectPatch old q id now) db.projects } := by
  unfold ProjectService.updateProject at h
  split at h
  · simp at h
  rename_i old heq
  dsimp only at h
  split at h
  · simp at h
  simp only [Except.ok.injEq, Prod.mk.injEq] at h
  obtain ⟨h1, h2⟩ := h
  exact ⟨old, heq, h1.symm, h2.symm⟩

theorem updateProject_find {db : DB} {id : String} {q : ProjectPatch}
    {now : String} {p' : Project} {db' : DB}
    (h : ProjectService.updateProject db id q now = Except.ok (p', db')) :
    db'.projects.find? (fun r => r.id == id) = some p' := by
  obtain ⟨old, hf, hp, hdb⟩ := updateProject_ok h
  subst hp
  rw [hdb]
  exact find?_setFirst _ _ _ _ hf (by simp [applyProjectPatch])

theorem updateProject_success (db : DB) (pid now : String) (p : Project)
    (q : ProjectPatch)
    (hp : db.projects.find? (fun r => r.id == pid) = some p)
    (hv : validateProject (applyProjectPatch p q pid now) = Except.ok ()) :
    ProjectService.updateProject db pid q now =
      Except.ok (applyProjectPatch p q pid now,
        { db with
            projects := setFirst (fun r => r.id == pid)
              (applyProjectPatch p q pid now) db.projects }) := by
  unfold ProjectService.updateProject
  rw [hp]
  dsimp only
  rw [hv]

theorem updateTodo_ok {db : DB} {id : String} {q : TodoPatch} {now : String}
    {t' : Todo} {db' : DB}
    (h : TodoService.updateTodo db id q now = Except.ok (t', db')) :
    ∃ old, db.todos.find? (fun x => x.id == id) = some old ∧
      t' = applyTodoPatch old q now ∧
      db' = { db with
                todos := setFirst (fun x => x.id == id)
                  (applyTodoPatch old q now) db.todos } := by
  unfold TodoService.updateTodo at h
  split at h
  · simp at h
  rename_i old heq
  dsimp only at h
  split at h
  · simp at h
  simp only [Except.ok.injEq, Prod.mk.injEq] at h
  obtain ⟨h1, h2⟩ := h
  exact ⟨old, heq, h1.symm, h2.symm⟩

theorem updateTodo_find {db : DB} {id : String} {q : TodoPatch} {now : String}
    {t' : Todo} {db' : DB}
    (h : TodoService.updateTodo db id q now = Except.ok (t', db')) :
    db'.todos.find? (fun x => x.id == id) = some t' := by
  obtain ⟨old, hf, ht, hdb⟩ := updateTodo_ok h
  have hold := List.find?_some hf
  subst ht
  rw [hdb]
  exact find?_setFirst _ _ _ _ hf (by simpa [applyTodoPatch] using hold)

theorem updateTodo_success (db : DB) (id now : String) (q : TodoPatch)
    (old : Todo)
    (hf : db.todos.find? (fun x => x.id == id) = some old)
    (hv : validateTodo (applyTodoPatch old q now) = Except.ok ()) :
    TodoService.updateTodo db id q now =
      Except.ok (applyTodoPatch old q now,
        { db with
            todos := setFirst (fun x => x.id == id)
              (applyTodoPatch old q now) db.todos }) := by
  unfold TodoService.updateTodo
  rw [hf]
  dsimp only
  rw [hv]

theorem updateProjectProgress_todos {db : DB} {pid now : String} {n : Nat}
    {db' : DB}
    (h : ProjectService.updateProjectProgress db pid now = Except.ok (n, db')) :
    db'.todos = db.todos := by
  unfold ProjectService.updateProjectProgress at h
  split at h
  · simp at h
  rename_i p heq
  split at h
  · split at h
    · simp at h
    rename_i a db1 heq2
    simp only [Except.ok.injEq, Prod.mk.injEq] at h
    obtain ⟨oldp, hf, hp, hdb⟩ := updateProject_ok heq2
    rw [← h.2, hdb]
  · dsimp only at h
    split at h
    · simp at h
    rename_i a db1 heq2
    simp only [Except.ok.injEq, Prod.mk.injEq] at h
    obtain ⟨oldp, hf, hp, hdb⟩ := updateProject_ok heq2
    rw [← h.2, hdb]

theorem writeCore_events_mono (cfg : StorageConfig) (s : ClientState)
    (serverOk : Bool) (entity : String) (data : JsValue)
    (filename : Option String) :
    ∃ t, ((StorageService.writeCore cfg s serverOk entity data
        filename).2).events = s.events ++ t := by
  obtain ⟨us, fb⟩ := cfg
  cases us with
  | false =>
    cases hl : lookupKV s.localStore
        (StorageService.getStorageKey "taskflow_data" entity filename) with
    | none =>
      refine ⟨[StorageEvent.setItem
        (StorageService.getStorageKey "taskflow_data" entity filename)
        (LocalCell.ok data)], ?_⟩
      simp [StorageService.writeCore, hl, ClientState.setItem]
    | some c =>
      refine ⟨[StorageEvent.setItem
          (StorageService.getStorageKey "taskflow_data" entity filename ++
            "_backup") c,
        StorageEvent.setItem
          (StorageService.getStorageKey "taskflow_data" entity filename)
          (LocalCell.ok data)], ?_⟩
      simp [StorageService.writeCore, hl, ClientState.setItem]
  | true =>
    cases serverOk with
    | true => exact ⟨[], by simp [StorageService.writeCore]⟩
    | false =>
      cases fb with
      | false =>
        exact ⟨[StorageEvent.toastWarning],
          by simp [StorageService.writeCore, ClientState.emit]⟩
      | true =>
        cases hl : lookupKV s.localStore
            (StorageService.getStorageKey "taskflow_data" entity filename) with
        | none =>
          refine ⟨[StorageEvent.toastWarning, StorageEvent.setItem
            (StorageService.getStorageKey "taskflow_data" entity filename)
            (LocalCell.ok data)], ?_⟩
          simp [StorageService.writeCore, hl, ClientState.emit,
            ClientState.setItem]
        | some c =>
          refine ⟨[StorageEvent.toastWarning,
            StorageEvent.setItem
              (StorageService.getStorageKey "taskflow_data" entity filename ++
                "_backup") c,
            StorageEvent.setItem
              (StorageService.getStorageKey "taskflow_data" entity filename)
              (LocalCell.ok data)], ?_⟩
          simp [StorageService.writeCore, hl, ClientState.emit,
            ClientState.setItem]

theorem updateMetadata_events_mono (cfg : StorageConfig) (s : ClientState)
    (o : WriteOracle) :
    ∃ t, (StorageService.updateMetadata cfg s o).events = s.events ++ t := by
  unfold StorageService.updateMetadata
  exact writeCore_events_mono cfg s o.metaServerOk "metadata" _ none

theorem validateProject_progress_patch (p : Project) (k : Nat)
    (pid now : String) :
    validateProject (applyProjectPatch p
      { ProjectPatch.empty with progress := some k } pid now) =
      validateProject p := rfl

/-! ### Claim theorems -/

/-- Claim C1 (code bug): after `addTodoToProject`, the persisted project is
supposed to satisfy `progress = round(100 * completedLinkedTodos /
todoIds.length)`.  The source calls `updateProjectProgress` *before* saving
the extended `todoIds`, so the recomputation uses the stale membership:
adding the completed todo `t1` to the empty project `p1` persists
`todoIds = ["t1"]` with `progress = 0`, whereas the invariant demands
`round(100 * 1 / 1) = 100`. -/
theorem spec_c1_eval :
    (ProjectService.addTodoToProject exDB "p1" "t1" "u1" "u2" "u3").toOption.map
        (fun x => (x.2.projects.find? (fun p => p.id == "p1")).map
          (fun p => (p.todoIds, p.progress))) = some (some (["t1"], 0)) ∧
    jsRound100 1 1 = 100 :=
  ⟨by rfl, rfl⟩

/-- Claim C2 (code bug): `read` is claimed to resolve every miss to an empty
*list* for collection entities including `note_versions_<noteId>`.  The
`getEmptyDataByEntityType` whitelist omits the `note_versions_` names, so a
404 (and likewise the fallback path with an absent local key) resolves to the
empty object `{}` instead of `[]` — the value the rest of the notes service
(typed `NoteVersion[]`, `.catch(() => [])`) plainly expects. -/
theorem spec_c2_eval :
    StorageService.read true ⟨true, true⟩ [] ReadOutcome.notFound
        "note_versions_n1" none = JsValue.obj [] ∧
    StorageService.read true ⟨true, true⟩ [] ReadOutcome.err
        "note_versions_n1" none = JsValue.obj [] ∧
    JsValue.obj [] ≠ JsValue.arr [] :=
  ⟨rfl, rfl, by simp⟩

/-- Claim C5 (code bug): `updateNote` is supposed to snapshot the pre-update
content and then persist the note at version 2.  On the generic state where
`note_versions_n1` has never been written, `getNoteVersions` resolves to `{}`
(see `spec_c2_eval`) and the array spread in `createNoteVersion` throws, so
`updateNote` rejects with `Failed to update note` instead — no snapshot is
appended and the note is not updated. -/
theorem spec_c5_eval :
    NotesService.updateNote exNoteDB "n1"
        { NotePatch.empty with title := some "N2" } "ts1" "v1" =
      Except.error "Failed to update note" ∧
    lookupKV exNoteDB.noteVersions "n1" = none :=
  ⟨rfl, rfl⟩

/-- Claim C4: deleting an id absent from any of the four entity collections
fails with the service's not-found rejection, and no storage write occurs —
in this embedding an `Except.error` result carries no successor state, and in
every modelled delete the collection write is sequenced after the length
check, so the persisted collection is exactly what it was. -/
theorem spec_c4 (db : DB) (id : String) :
    ((∀ t ∈ db.todos, t.id ≠ id) →
      TodoService.deleteTodo db id =
        Except.error ("Todo with id " ++ id ++ " not found")) ∧
    ((∀ p ∈ db.projects, p.id ≠ id) →
      ProjectService.deleteProject db id =
        Except.error ("Project with id " ++ id ++ " not found")) ∧
    ((∀ n ∈ db.notes, n.id ≠ id) →
      NotesService.deleteNote db id = Except.error "Failed to delete note") ∧
    ((∀ n ∈ db.notifications, n.id ≠ id) →
      NotificationService.deleteNotification db id =
        Except.error "Failed to delete notification") := by
  refine ⟨fun h => ?_, fun h => ?_, fun h => ?_, fun h => ?_⟩
  · unfold TodoService.deleteTodo
    have hfix : db.todos.filter (fun t => !(t.id == id)) = db.todos :=
      List.filter_eq_self.mpr (fun a ha => by simp [h a ha])
    simp [hfix]
  · unfold ProjectService.deleteProject
    have hfix : db.projects.filter (fun p => !(p.id == id)) = db.projects :=
      List.filter_eq_self.mpr (fun a ha => by simp [h a ha])
    simp [hfix]
  · unfold NotesService.deleteNote
    have hfix : db.notes.filter (fun n => !(n.id == id)) = db.notes :=
      List.filter_eq_self.mpr (fun a ha => by simp [h a ha])
    simp [hfix]
  · unfold NotificationService.deleteNotification
    have hfix : db.notifications.filter (fun n => !(n.id == id)) =
        db.notifications :=
      List.filter_eq_self.mpr (fun a ha => by simp [h a ha])
    simp [hfix]

/-- Witness for C4 at a state populating all four collections and an id
present in none of them. -/
theorem spec_c4_witness :
    TodoService.deleteTodo exFullDB "zzz" =
      Except.error ("Todo with id " ++ "zzz" ++ " not found") ∧
    ProjectService.deleteProject exFullDB "zzz" =
      Except.error ("Project with id " ++ "zzz" ++ " not found") ∧
    NotesService.deleteNote exFullDB "zzz" =
      Except.error "Failed to delete note" ∧
    NotificationService.deleteNotification exFullDB "zzz" =
      Except.error "Failed to delete notification" := by
  have h := spec_c4 exFullDB "zzz"
  exact ⟨h.1 (by decide), h.2.1 (by decide), h.2.2.1 (by decide),
    h.2.2.2 (by decide)⟩

/-- Claim C3: for an existing project that passes validation,
`updateProjectProgress` succeeds, returns
`progress = round(100 * completed / todoIds.length)` — `0` when `todoIds` is
empty — where `completed` counts the completed todos linked (by
back-reference) to the project, and persists the same value on the stored
project. -/
theorem spec_c3 (db : DB) (pid now : String) (p : Project)
    (hp : ProjectService.getProjectById db pid = some p)
    (hv : validateProject p = Except.ok ()) :
    ∃ pr db',
      ProjectService.updateProjectProgress db pid now = Except.ok (pr, db') ∧
      pr = (if p.todoIds.length = 0 then 0
            else jsRound100
              ((TodoService.getTodosByProject db pid).filter
                (fun t => t.status == TodoStatus.completed)).length
              p.todoIds.length) ∧
      ∃ p', ProjectService.getProjectById db' pid = some p' ∧
        p'.progress = pr := by
  have hfind : db.projects.find? (fun r => r.id == pid) = some p := hp
  by_cases h0 : p.todoIds.length = 0
  · have hsucc := updateProject_success db pid now p
      { ProjectPatch.empty with progress := some 0 } hfind
      (by rw [validateProject_progress_patch]; exact hv)
    refine ⟨0, updateProjectResultDB db pid now p
      { ProjectPatch.empty with progress := some 0 }, ?_, by simp [h0], ?_⟩
    · unfold ProjectService.updateProjectProgress
      rw [hp]
      dsimp only
      rw [if_pos (by simp [h0]), hsucc]
      rfl
    · exact ⟨applyProjectPatch p
        { ProjectPatch.empty with progress := some 0 } pid now,
        updateProject_find hsucc, rfl⟩
  · have hsucc := updateProject_success db pid now p
      { ProjectPatch.empty with
          progress := some (jsRound100
            ((TodoService.getTodosByProject db pid).filter
              (fun t => t.status == TodoStatus.completed)).length
            p.todoIds.length) } hfind
      (by rw [validateProject_progress_patch]; exact hv)
    refine ⟨jsRound100
        ((TodoService.getTodosByProject db pid).filter
          (fun t => t.status == TodoStatus.completed)).length
        p.todoIds.length,
      updateProjectResultDB db pid now p
        { ProjectPatch.empty with
            progress := some (jsRound100
              ((TodoService.getTodosByProject db pid).filter
                (fun t => t.status == TodoStatus.completed)).length
              p.todoIds.length) },
      ?_, by simp [h0], ?_⟩
    · unfold ProjectService.updateProjectProgress
      rw [hp]
      dsimp only
      rw [if_neg (by simp [h0]), hsucc]
      rfl
    · exact ⟨applyProjectPatch p
        { ProjectPatch.empty with
            progress := some (jsRound100
              ((TodoService.getTodosByProject db pid).filter
                (fun t => t.status == TodoStatus.completed)).length
              p.todoIds.length) } pid now,
        updateProject_find hsucc, rfl⟩

/-- Witness for C3 at both spec examples: the empty project gets progress 0;
the project with four linked todos, exactly one completed, gets 25. -/
theorem spec_c3_witness :
    (∃ pr db',
      ProjectService.updateProjectProgress exDB "p1" "u1" =
        Except.ok (pr, db') ∧ pr = 0 ∧
      ∃ p', ProjectService.getProjectById db' "p1" = some p' ∧
        p'.progress = pr) ∧
    (∃ pr db',
      ProjectService.updateProjectProgress exDB4 "p4" "u1" =
        Except.ok (pr, db') ∧ pr = 25 ∧
      ∃ p', ProjectService.getProjectById db' "p4" = some p' ∧
        p'.progress = pr) := by
  constructor
  · have h := spec_c3 exDB "p1" "u1" exProject rfl rfl
    have e : (if exProject.todoIds.length = 0 then 0
        else jsRound100
          ((TodoService.getTodosByProject exDB "p1").filter
            (fun t => t.status == TodoStatus.completed)).length
          exProject.todoIds.length) = 0 := by decide
    rw [e] at h
    exact h
  · have h := spec_c3 exDB4 "p4" "u1" exProject4 rfl rfl
    have e : (if exProject4.todoIds.length = 0 then 0
        else jsRound100
          ((TodoService.getTodosByProject exDB4 "p4").filter
            (fun t => t.status == TodoStatus.completed)).length
          exProject4.todoIds.length) = 25 := by decide
    rw [e] at h
    exact h

/-- Claim C10: when `updateTodo` succeeds on a stored id, the persisted
collection keeps its length, every position other than the updated one is
exactly unchanged (hence every todo with a different id is unchanged and in
its original position), and the updated record keeps the original `id` and
`createdAt` (the patch type cannot carry either). -/
theorem spec_c10 (db : DB) (id now : String) (q : TodoPatch) (old : Todo)
    (hfind : db.todos.find? (fun t => t.id == id) = some old)
    (hv : validateTodo (applyTodoPatch old q now) = Except.ok ()) :
    ∃ t db',
      TodoService.updateTodo db id q now = Except.ok (t, db') ∧
      db'.todos.length = db.todos.length ∧
      t.id = old.id ∧ t.createdAt = old.createdAt ∧
      (∃ i : Nat, db.todos[i]? = some old ∧ db'.todos[i]? = some t ∧
        ∀ j : Nat, j ≠ i → db'.todos[j]? = db.todos[j]?) := by
  have hsucc := updateTodo_success db id now q old hfind hv
  refine ⟨applyTodoPatch old q now, updateTodoResultDB db id now old q,
    hsucc, ?_, rfl, rfl, ?_⟩
  · exact setFirst_length _ _ _
  · exact setFirst_getElem (fun x => x.id == id)
      (applyTodoPatch old q now) old db.todos hfind

/-- Witness for C10: retitling the stored todo `t1`. -/
theorem spec_c10_witness :
    ∃ t db',
      TodoService.updateTodo exDB "t1"
          { TodoPatch.empty with title := some "T2" } "ts1" =
        Except.ok (t, db') ∧
      db'.todos.length = exDB.todos.length ∧
      t.id = exTodo.id ∧ t.createdAt = exTodo.createdAt ∧
      (∃ i : Nat, exDB.todos[i]? = some exTodo ∧ db'.todos[i]? = some t ∧
        ∀ j : Nat, j ≠ i → db'.todos[j]? = exDB.todos[j]?) :=
  spec_c10 exDB "t1" "ts1" { TodoPatch.empty with title := some "T2" }
    exTodo rfl rfl

/-- Counterexample to claim C6 as stated: the claim says a malformed
quiet-hours bound yields "not in quiet hours", but with the malformed (yet
two-part) start `"aa:bb"` and end `"23:00"`, the NaN start minutes make
`startMinutes <= endMinutes` false, the code falls into the
midnight-wraparound branch, and the check at 12:00 (minute 720) succeeds
against the end bound — reporting *in* quiet hours. -/
theorem spec_c6_cex :
    NotificationService.isInQuietHours (some "aa:bb") (some "23:00") 720 =
      true := by
  rfl

/-- Claim C6 as amended: minute-of-day containment with the
midnight-wraparound rule holds for well-formed `HH:MM` bounds, and a missing
(or empty) bound, or one that does not split on `:` into exactly two parts,
yields false; but a two-part bound with a non-numeric component propagates
`NaN`, for which only the wraparound branch is taken (see `spec_c6_cex`). -/
theorem spec_c6_amended :
    (∀ e now, NotificationService.isInQuietHours none e now = false) ∧
    (∀ s now, NotificationService.isInQuietHours s none now = false) ∧
    (∀ qs qe now,
      ((jsSplit qs ':').length ≠ 2 ∨ (jsSplit qe ':').length ≠ 2) →
      NotificationService.isInQuietHours (some qs) (some qe) now = false) ∧
    (∀ qs qe a b c d sh sm eh em now,
      jsSplit qs ':' = [a, b] → jsSplit qe ':' = [c, d] →
      parseIntJs a = some sh → parseIntJs b = some sm →
      parseIntJs c = some eh → parseIntJs d = some em →
      NotificationService.isInQuietHours (some qs) (some qe) now =
        (if sh * 60 + sm ≤ eh * 60 + em then
          decide (sh * 60 + sm ≤ now ∧ now ≤ eh * 60 + em)
        else
          decide (now ≥ sh * 60 + sm ∨ now ≤ eh * 60 + em))) := by
  refine ⟨fun e now => rfl, ?_, ?_, ?_⟩
  · intro s now
    cases s with
    | none => rfl
    | some str => simp [NotificationService.isInQuietHours]
  · intro qs qe now hlen
    unfold NotificationService.isInQuietHours
    by_cases h1 : qs = ""
    · subst h1; simp
    by_cases h2 : qe = ""
    · subst h2; simp
    rw [if_neg (by simp [h1, h2])]
    dsimp only
    rcases hlen with h | h
    · rw [if_pos (by simp [h])]
    · rw [if_pos (by simp [h])]
  · intro qs qe a b c d sh sm eh em now hqs hqe hpa hpb hpc hpd
    have h1 : qs ≠ "" := by
      intro h; subst h
      simp [jsSplit, splitOnCharList] at hqs
    have h2 : qe ≠ "" := by
      intro h; subst h
      simp [jsSplit, splitOnCharList] at hqe
    unfold NotificationService.isInQuietHours
    rw [if_neg (by simp [h1, h2])]
    simp only [Option.getD_some]
    rw [hqs, hqe]
    rw [if_neg (by simp)]
    simp only [List.getD_cons_zero, List.getD_cons_succ]
    rw [hpa, hpb, hpc, hpd]
    dsimp only [jsLeNN, jsGeNum, jsLeNum]
    by_cases hcmp : sh * 60 + sm ≤ eh * 60 + em
    · simp [hcmp, Bool.decide_and, ge_iff_le]
    · simp [hcmp, Bool.decide_or, ge_iff_le]

/-- Witness for the amended C6 at the spec's examples: with quiet hours
22:00–06:00, checks at 23:30 and 03:00 are in quiet hours, one at 12:00 is
not, and a missing start is never in quiet hours. -/
theorem spec_c6_witness :
    NotificationService.isInQuietHours (some "22:00") (some "06:00") 1410 =
      true ∧
    NotificationService.isInQuietHours (some "22:00") (some "06:00") 180 =
      true ∧
    NotificationService.isInQuietHours (some "22:00") (some "06:00") 720 =
      false ∧
    NotificationService.isInQuietHours none (some "06:00") 720 = false := by
  obtain ⟨hnone, -, -, hmain⟩ := spec_c6_amended
  refine ⟨?_, ?_, ?_, hnone (some "06:00") 720⟩
  · have h := hmain "22:00" "06:00" "22" "00" "06" "00" 22 0 6 0 1410
      rfl rfl rfl rfl rfl rfl
    rw [h]; decide
  · have h := hmain "22:00" "06:00" "22" "00" "06" "00" 22 0 6 0 180
      rfl rfl rfl rfl rfl rfl
    rw [h]; decide
  · have h := hmain "22:00" "06:00" "22" "00" "06" "00" 22 0 6 0 720
      rfl rfl rfl rfl rfl rfl
    rw [h]; decide

/-- Counterexample to claim C9 as stated: `createTodo` reads the clock twice
(`createdAt: new Date().toISOString(), updatedAt: new Date().toISOString()`),
so when the two readings straddle a millisecond boundary the created record
has `createdAt ≠ updatedAt`. -/
theorem spec_c9_cex :
    (TodoService.createTodo exDB exInput "idX" "2024-01-01T00:00:00.000Z"
        "2024-01-01T00:00:00.001Z").toOption.map
      (fun x => x.1.createdAt == x.1.updatedAt) = some false := by
  rfl

/-- Claim C9 as amended: for a valid creation input, `createTodo` appends a
record carrying the generated id — distinct from every other id in the
collection provided the generator returned a fresh id (the generator
`generateId` of `@/lib/utils` is not in the snapshot; per the spec it
produces client-generated unique identifiers, modelled here as the `newId`
input) — and its `createdAt` equals its `updatedAt` whenever the two clock
readings taken during creation coincide. -/
theorem spec_c9_amended (db : DB) (input : TodoCreateInput)
    (newId now1 now2 : String)
    (hv : validateTodoFields input.title input.description input.dueDate =
      Except.ok ())
    (hid : ∀ t ∈ db.todos, t.id ≠ newId) (hts : now1 = now2) :
    ∃ t db', TodoService.createTodo db input newId now1 now2 =
        Except.ok (t, db') ∧
      t.id = newId ∧ (∀ u ∈ db.todos, u.id ≠ t.id) ∧
      t.createdAt = t.updatedAt ∧ db'.todos = db.todos ++ [t] := by
  unfold TodoService.createTodo
  rw [hv]
  exact ⟨_, _, rfl, rfl, fun u hu => hid u hu, hts, rfl⟩

/-- Witness for the amended C9: a fresh id and coinciding clock readings. -/
theorem spec_c9_witness :
    ∃ t db', TodoService.createTodo exDB exInput "idX" "ts9" "ts9" =
        Except.ok (t, db') ∧
      t.id = "idX" ∧ (∀ u ∈ exDB.todos, u.id ≠ t.id) ∧
      t.createdAt = t.updatedAt ∧ db'.todos = exDB.todos ++ [t] :=
  spec_c9_amended exDB exInput "idX" "ts9" "ts9" rfl (by decide) rfl

theorem writeCore_fallback (s : ClientState) (entity : String)
    (data : JsValue) (filename : Option String) :
    (StorageService.writeCore ⟨true, true⟩ s false entity data filename).1 =
      none ∧
    StorageEvent.setItem
        (StorageService.getStorageKey "taskflow_data" entity filename)
        (LocalCell.ok data) ∈
      (StorageService.writeCore ⟨true, true⟩ s false entity data
        filename).2.events ∧
    StorageEvent.toastWarning ∈
      (StorageService.writeCore ⟨true, true⟩ s false entity data
        filename).2.events := by
  unfold StorageService.writeCore
  cases hl : lookupKV s.localStore
      (StorageService.getStorageKey "taskflow_data" entity filename) with
  | none =>
    simp [hl, ClientState.emit, ClientState.setItem]
  | some c =>
    simp [hl, ClientState.emit, ClientState.setItem]

/-- Claim C7: when the server write fails and the local-storage fallback is
enabled, `write` returns without raising (first component `none`), the
entity's local-storage key receives a `setItem` with the data, and the
warning toast is emitted. -/
theorem spec_c7 (s : ClientState) (o : WriteOracle) (entity : String)
    (data : JsValue) (filename : Option String) (hfail : o.serverOk = false) :
    (StorageService.write true ⟨true, true⟩ s o entity data filename).1 =
      none ∧
    StorageEvent.setItem
        (StorageService.getStorageKey "taskflow_data" entity filename)
        (LocalCell.ok data) ∈
      (StorageService.write true ⟨true, true⟩ s o entity data
        filename).2.events ∧
    StorageEvent.toastWarning ∈
      (StorageService.write true ⟨true, true⟩ s o entity data
        filename).2.events := by
  have hw := writeCore_fallback s entity data filename
  unfold StorageService.write
  rw [if_neg (by simp), hfail]
  rcases hres : StorageService.writeCore ⟨true, true⟩ s false entity data
      filename with ⟨e1, s1⟩
  rw [hres] at hw
  obtain ⟨hw1, hw2, hw3⟩ := hw
  simp only at hw1
  subst hw1
  dsimp only
  by_cases hm : (entity == "metadata") = true
  · rw [if_pos hm]
    exact ⟨rfl, hw2, hw3⟩
  · rw [if_neg hm]
    obtain ⟨t, ht⟩ := updateMetadata_events_mono ⟨true, true⟩ s1 o
    refine ⟨rfl, ?_, ?_⟩
    · rw [ht]; exact List.mem_append_left _ hw2
    · rw [ht]; exact List.mem_append_left _ hw3

/-- Witness for C7: a failed server write for the `todos` entity over empty
client state. -/
theorem spec_c7_witness :
    (StorageService.write true ⟨true, true⟩ ⟨[], []⟩
        ⟨false, ReadOutcome.notFound, true, "m"⟩ "todos" (JsValue.arr [])
        none).1 = none ∧
    StorageEvent.setItem
        (StorageService.getStorageKey "taskflow_data" "todos" none)
        (LocalCell.ok (JsValue.arr [])) ∈
      (StorageService.write true ⟨true, true⟩ ⟨[], []⟩
        ⟨false, ReadOutcome.notFound, true, "m"⟩ "todos" (JsValue.arr [])
        none).2.events ∧
    StorageEvent.toastWarning ∈
      (StorageService.write true ⟨true, true⟩ ⟨[], []⟩
        ⟨false, ReadOutcome.notFound, true, "m"⟩ "todos" (JsValue.arr [])
        none).2.events :=
  spec_c7 ⟨[], []⟩ ⟨false, ReadOutcome.notFound, true, "m"⟩ "todos"
    (JsValue.arr []) none rfl

/-- Claim C8: once `addTodoToProject p t` has succeeded, running it again is
the identity — the stored project already contains `t`, so the second call
returns the same project and state, hence the same `todoIds` (no duplicate)
and the same `progress`. -/
theorem spec_c8 (db db1 : DB) (pid tid a b c d e f : String) (p1 : Project)
    (h1 : ProjectService.addTodoToProject db pid tid a b c =
      Except.ok (p1, db1)) :
    ProjectService.addTodoToProject db1 pid tid d e f =
      Except.ok (p1, db1) := by
  unfold ProjectService.addTodoToProject at h1
  split at h1
  · simp at h1
  rename_i p hfp
  split at h1
  · simp at h1
  rename_i t hft
  by_cases hc : (p.todoIds.contains tid) = true
  · rw [if_pos hc] at h1
    simp only [Except.ok.injEq, Prod.mk.injEq] at h1
    obtain ⟨hp1, hdb1⟩ := h1
    subst hp1
    subst hdb1
    unfold ProjectService.addTodoToProject
    rw [hfp]
    dsimp only
    rw [hft]
    dsimp only
    rw [if_pos hc]
  · rw [if_neg hc] at h1
    dsimp only at h1
    split at h1
    · simp at h1
    rename_i t' dbA hut
    split at h1
    · simp at h1
    rename_i n dbB hupp
    have hfind1 := updateProject_find h1
    obtain ⟨oldp, hfoldp, hp1eq, hdb1eq⟩ := updateProject_ok h1
    have htodos1 : db1.todos = dbB.todos := by rw [hdb1eq]
    have htodosB : dbB.todos = dbA.todos := updateProjectProgress_todos hupp
    have hfindT : dbA.todos.find? (fun x => x.id == tid) = some t' :=
      updateTodo_find hut
    have hcontains : p1.todoIds.contains tid = true := by
      rw [hp1eq]
      exact contains_append_singleton p.todoIds tid
    have hg : ProjectService.getProjectById db1 pid = some p1 := hfind1
    unfold ProjectService.addTodoToProject
    rw [hg]
    dsimp only
    rw [htodos1, htodosB, hfindT]
    dsimp only
    rw [if_pos hcontains]

/-- Witness for C8: adding `t1` to `p1` a second time returns the
post-first-call project and state unchanged. -/
theorem spec_c8_witness :
    ProjectService.addTodoToProject exDBAfterAdd "p1" "t1" "w1" "w2" "w3" =
      Except.ok (exProjectAfterAdd, exDBAfterAdd) :=
  spec_c8 exDB exDBAfterAdd "p1" "t1" "u1" "u2" "u3" "w1" "w2" "w3"
    exProjectAfterAdd (by rfl)
